import Mathlib

/-!
Verification of the index-scan row-retrieval core of the VoltDB execution
engine, as declared in `src/ee/executors/indexscanexecutor.h`.

The header carries two pieces of executable code: the static helper
`IndexScanExecutor::getNextTuple` (the cursor-walking step shared with
`NestLoopIndexExecutor`) and the `IndexScanExecutor` constructor with its
member initializers.  Both are embedded below as state-passing functions.
The index itself is an external collaborator, so it is modelled as a pair
of cursor primitives (`nextValueAtKey`, `nextValue`); a concrete list-backed
instance serves for evaluation.  The `CountingPostfilter` and the
suspendable-fragment execute loop are only forward-declared in the header,
so they are modelled from the specification text, as marked on each
definition.
-/

set_option autoImplicit false

namespace VoltDB

/-- The index lookup types named by the spec: equality, the four range
comparisons, a generic range lookup, geo-containment, plus the invalid
sentinel (`IndexLookupType` in the engine). -/
inductive IndexLookupType where
  | INDEX_LOOKUP_TYPE_INVALID
  | INDEX_LOOKUP_TYPE_EQ
  | INDEX_LOOKUP_TYPE_GT
  | INDEX_LOOKUP_TYPE_GTE
  | INDEX_LOOKUP_TYPE_LT
  | INDEX_LOOKUP_TYPE_LTE
  | INDEX_LOOKUP_TYPE_RANGE
  | INDEX_LOOKUP_TYPE_GEO_CONTAINS
  deriving DecidableEq, Repr

/-- The two cursor-advancing primitives `getNextTuple` can invoke on the
index collaborator. -/
inductive CursorOp where
  | nextValueAtKey
  | nextValue
  deriving DecidableEq, Repr

/-- A `TableTuple` is either a view of a row or the null tuple. -/
abbrev TableTuple (α : Type) := Option α

/-- `TableTuple::isNullTuple()`: whether this is the null tuple. -/
def TableTuple.isNullTuple {α : Type} (t : TableTuple α) : Bool :=
  t.isNone

/-- The index collaborator, reduced to the two opaque cursor primitives the
scan step uses.  Each takes the cursor (mutated by reference in C++, so
state-passed here) and yields the produced tuple together with the advanced
cursor. -/
structure TableIndex (α κ : Type) where
  nextValueAtKey : κ → TableTuple α × κ
  nextValue : κ → TableTuple α × κ

/-- The observable outcome of one `getNextTuple` step: the boolean return
value, the tuple left in the out-parameter slot, the cursor state after the
call, and the sequence of cursor primitives invoked, in order. -/
structure GetNextTupleResult (α κ : Type) where
  result : Bool
  tuple : TableTuple α
  cursor : κ
  calls : List CursorOp
  deriving DecidableEq, Repr

/-- `IndexScanExecutor::getNextTuple` (indexscanexecutor.h lines 96-116),
translated statement by statement.  `tuple` is the value held by the
out-parameter slot before the call; the C++ early `return true` becomes the
first branch's immediate result; the final `return ! tuple->isNullTuple()`
is reproduced in each remaining path with whatever the slot then holds. -/
def getNextTuple {α κ : Type} (lookupType : IndexLookupType) (tuple : TableTuple α)
    (index : TableIndex α κ) (cursor : κ) (activeNumOfSearchKeys : Int) :
    GetNextTupleResult α κ :=
  if lookupType = IndexLookupType.INDEX_LOOKUP_TYPE_EQ
      ∨ lookupType = IndexLookupType.INDEX_LOOKUP_TYPE_GEO_CONTAINS then
    let r1 := index.nextValueAtKey cursor
    if !r1.1.isNullTuple then
      ⟨true, r1.1, r1.2, [CursorOp.nextValueAtKey]⟩
    else if (lookupType ≠ IndexLookupType.INDEX_LOOKUP_TYPE_EQ
        ∧ lookupType ≠ IndexLookupType.INDEX_LOOKUP_TYPE_GEO_CONTAINS)
        ∨ activeNumOfSearchKeys = 0 then
      let r2 := index.nextValue r1.2
      ⟨!r2.1.isNullTuple, r2.1, r2.2, [CursorOp.nextValueAtKey, CursorOp.nextValue]⟩
    else
      ⟨!r1.1.isNullTuple, r1.1, r1.2, [CursorOp.nextValueAtKey]⟩
  else if (lookupType ≠ IndexLookupType.INDEX_LOOKUP_TYPE_EQ
      ∧ lookupType ≠ IndexLookupType.INDEX_LOOKUP_TYPE_GEO_CONTAINS)
      ∨ activeNumOfSearchKeys = 0 then
    let r2 := index.nextValue cursor
    ⟨!r2.1.isNullTuple, r2.1, r2.2, [CursorOp.nextValue]⟩
  else
    ⟨!tuple.isNullTuple, tuple, cursor, []⟩

/-- Iterate `getNextTuple` from a cursor, collecting the emitted rows until
the step returns `false` (or the fuel bound is hit).  This is the row
stream a scan loop observes from the walker. -/
def scanTuples {α κ : Type} (lookupType : IndexLookupType) (index : TableIndex α κ)
    (activeNumOfSearchKeys : Int) : Nat → κ → List α
  | 0, _ => []
  | fuel + 1, cursor =>
    let r := getNextTuple lookupType (none : TableTuple α) index cursor
      activeNumOfSearchKeys
    if r.result then
      match r.tuple with
      | some v => v :: scanTuples lookupType index activeNumOfSearchKeys fuel r.cursor
      | none => []
    else []

/-- Cursor over the list-backed model index: the next position to read,
and, when positioned by `moveToKey`, the key whose duplicate chain
`nextValueAtKey` walks. -/
structure ListIndexCursor where
  pos : Nat
  matchKey : Option Int
  deriving DecidableEq, Repr

/-- Model `nextValueAtKey`: yield the row at the cursor while it still
carries the key the cursor was positioned at, else the null tuple. -/
def listNextValueAtKey (rows : List Int) (c : ListIndexCursor) :
    TableTuple Int × ListIndexCursor :=
  match c.matchKey, rows[c.pos]? with
  | some k, some v =>
      if v = k then (some v, ⟨c.pos + 1, c.matchKey⟩)
      else ((none : TableTuple Int), c)
  | _, _ => ((none : TableTuple Int), c)

/-- Model `nextValue`: yield the row at the cursor position, if any, and
advance. -/
def listNextValue (rows : List Int) (c : ListIndexCursor) :
    TableTuple Int × ListIndexCursor :=
  match rows[c.pos]? with
  | some v => (some v, ⟨c.pos + 1, c.matchKey⟩)
  | none => ((none : TableTuple Int), c)

/-- A model index over a (sorted) list of single-column integer rows. -/
def listIndex (rows : List Int) : TableIndex Int ListIndexCursor :=
  ⟨listNextValueAtKey rows, listNextValue rows⟩

/-- Model `moveToKey`: position the cursor at the first row equal to `k`
and record `k` for the duplicate-chain walk. -/
def moveToKey (rows : List Int) (k : Int) : ListIndexCursor :=
  ⟨rows.findIdx (fun v => v = k), some k⟩

/-- Model `moveToGreaterThanKey`: position the cursor at the first row
strictly greater than `k` (rows sorted ascending); no match key is set. -/
def moveToGreaterThanKey (rows : List Int) (k : Int) : ListIndexCursor :=
  ⟨rows.findIdx (fun v => k < v), none⟩

/-- The `IndexScanExecutor` members set by its constructor's initializer
list (indexscanexecutor.h lines 77-84).  Pointer members initialized to
`NULL` become `Option` fields holding `none`; `m_projector` is opaque
here. -/
structure IndexScanExecutor where
  m_projector : Unit
  m_searchKeyBackingStore : Option Unit
  m_suspendable : Bool
  m_tupleLimitForSuspendableFragments : Int
  m_aggExec : Option Unit
  deriving DecidableEq, Repr

/-- The `IndexScanExecutor(engine, abstractNode)` constructor: its
initializer list sets `m_projector` to the default, both pointers to
`NULL`, `m_suspendable` to `false` and
`m_tupleLimitForSuspendableFragments` to `1`. -/
def mkIndexScanExecutor : IndexScanExecutor :=
  ⟨(), none, false, 1, none⟩

/-- `IndexScanExecutor::p_isSuspendable()` returns `m_suspendable`
(indexscanexecutor.h line 122). -/
def IndexScanExecutor.p_isSuspendable (e : IndexScanExecutor) : Bool :=
  e.m_suspendable

/-- Modelled from the spec: `struct CountingPostfilter` is only
forward-declared in the header, so its offset/limit accounting state is
taken from the spec's OutputPipeline section: the configured offset and
limit thresholds, plus the running counts of rows skipped toward the
offset and rows kept toward the limit, persisted across suspension within
one logical scan. -/
structure CountingPostfilter where
  offset : Nat
  limit : Nat
  skipped : Nat
  kept : Nat
  deriving DecidableEq, Repr

/-- Modelled from the spec: the non-suspended scan loop feeding the match
stream through the `CountingPostfilter`.  Per candidate row: once the
limit threshold is reached the scan stops entirely; while under the offset
threshold the row is discarded; otherwise it is emitted and counted.
Returns the emitted rows, the final postfilter state, and the number of
matches consumed before stopping (the terminal row position). -/
def runScanPipeline {α : Type} : CountingPostfilter → List α →
    List α × CountingPostfilter × Nat
  | pf, [] => ([], pf, 0)
  | pf, r :: rest =>
    if pf.limit ≤ pf.kept then ([], pf, 0)
    else if pf.skipped < pf.offset then
      let s := runScanPipeline ⟨pf.offset, pf.limit, pf.skipped + 1, pf.kept⟩ rest
      (s.1, s.2.1, s.2.2 + 1)
    else
      let s := runScanPipeline ⟨pf.offset, pf.limit, pf.skipped, pf.kept + 1⟩ rest
      (r :: s.1, s.2.1, s.2.2 + 1)

/-- The per-invocation completion status reported to the enclosing
engine. -/
inductive ScanStatus where
  | exhausted
  | limitReached
  | suspendedMoreAvailable
  deriving DecidableEq, Repr

/-- Modelled from the spec: one invocation of the suspendable execute loop
(`p_execute` and the suspension bookkeeping around
`m_tupleLimitForSuspendableFragments` are not part of this header).
Arguments after `invLimit` are the per-invocation counter of rows
processed, the postfilter state carried over from suspension, and the
matches the cursor has yet to produce.  Before processing each row the
counter is checked against the invocation limit, but the check can fire
only when the executor is suspendable; a reached postfilter limit or an
exhausted cursor is terminal.  Returns the rows emitted, the resumption
state (postfilter counters and the exact remaining match stream), and the
completion status. -/
def runInvocation {α : Type} (suspendable : Bool) (invLimit : Nat) :
    Nat → CountingPostfilter → List α →
    List α × (CountingPostfilter × List α) × ScanStatus
  | _, pf, [] => ([], (pf, []), ScanStatus.exhausted)
  | rowsProcessed, pf, r :: rest =>
    if pf.limit ≤ pf.kept then
      ([], (pf, r :: rest), ScanStatus.limitReached)
    else if suspendable ∧ invLimit ≤ rowsProcessed then
      ([], (pf, r :: rest), ScanStatus.suspendedMoreAvailable)
    else if pf.skipped < pf.offset then
      runInvocation suspendable invLimit (rowsProcessed + 1)
        ⟨pf.offset, pf.limit, pf.skipped + 1, pf.kept⟩ rest
    else
      let s := runInvocation suspendable invLimit (rowsProcessed + 1)
        ⟨pf.offset, pf.limit, pf.skipped, pf.kept + 1⟩ rest
      (r :: s.1, s.2.1, s.2.2)

/-- Modelled from the spec: a sequence of suspend/resume invocations with
the given per-invocation row limits.  Each resume continues from the exact
resumption state the previous invocation returned (postfilter counters and
remaining match stream; the search key is not re-derived), and the
sequence stops at the first non-suspended status.  Returns the
concatenation of the rows emitted across invocations. -/
def runInvocations {α : Type} (suspendable : Bool) :
    List Nat → CountingPostfilter → List α → List α
  | [], _, _ => []
  | n :: rest, pf, pending =>
    let s := runInvocation suspendable n 0 pf pending
    if s.2.2 = ScanStatus.suspendedMoreAvailable then
      s.1 ++ runInvocations suspendable rest s.2.1.1 s.2.1.2
    else s.1

/-- The postfilter pipeline emits exactly the matches after the first
`offset - skipped` of them, capped at `limit - kept` rows. -/
theorem runScanPipeline_emits {α : Type} (ms : List α) :
    ∀ o l s k : Nat, (runScanPipeline ⟨o, l, s, k⟩ ms).1
      = (ms.drop (o - s)).take (l - k) := by
  induction ms with
  | nil => intro o l s k; simp [runScanPipeline]
  | cons r rest ih =>
    intro o l s k
    by_cases hlk : l ≤ k
    · have hk0 : l - k = 0 := by omega
      simp [runScanPipeline, hlk, hk0]
    · by_cases hso : s < o
      · have hd : o - s = (o - (s + 1)) + 1 := by omega
        rw [hd, List.drop_succ_cons]
        simp [runScanPipeline, hlk, hso, ih]
      · have hd : o - s = 0 := by omega
        have hk : l - k = (l - (k + 1)) + 1 := by omega
        rw [hd, List.drop_zero, hk, List.take_succ_cons]
        simp [runScanPipeline, hlk, hso, ih, hd]

/-- The number of matches the pipeline consumes before stopping is a
function of the thresholds, the counters, and the match count alone. -/
theorem runScanPipeline_consumed {α : Type} (ms : List α) :
    ∀ o l s k : Nat, (runScanPipeline ⟨o, l, s, k⟩ ms).2.2
      = if l ≤ k then 0 else min ((o - s) + (l - k)) ms.length := by
  induction ms with
  | nil => intro o l s k; simp [runScanPipeline]
  | cons r rest ih =>
    intro o l s k
    by_cases hlk : l ≤ k
    · simp [runScanPipeline, hlk]
    · by_cases hso : s < o
      · simp [runScanPipeline, hlk, hso, ih]
        omega
      · by_cases hlk1 : l ≤ k + 1 <;>
          simp [runScanPipeline, hlk, hso, ih, hlk1] <;> omega

/-- A non-suspendable invocation never reports suspension and emits the
same rows as the full pipeline run. -/
theorem runInvocation_not_suspendable {α : Type} (invLimit : Nat) (ms : List α) :
    ∀ (c : Nat) (pf : CountingPostfilter),
      (runInvocation false invLimit c pf ms).1 = (runScanPipeline pf ms).1
      ∧ (runInvocation false invLimit c pf ms).2.2
          ≠ ScanStatus.suspendedMoreAvailable := by
  induction ms with
  | nil => intro c pf; simp [runInvocation, runScanPipeline]
  | cons r rest ih =>
    intro c pf
    by_cases hlk : pf.limit ≤ pf.kept
    · simp [runInvocation, runScanPipeline, hlk]
    · by_cases hso : pf.skipped < pf.offset
      · simpa [runInvocation, runScanPipeline, hlk, hso] using
          ih (c + 1) ⟨pf.offset, pf.limit, pf.skipped + 1, pf.kept⟩
      · have h := ih (c + 1) ⟨pf.offset, pf.limit, pf.skipped, pf.kept + 1⟩
        simp [runInvocation, runScanPipeline, hlk, hso, h.1, h.2]

/-- Decomposition: the full pipeline run over a match stream is the rows
one suspendable invocation emits followed by the full pipeline run from
the resumption state that invocation returns. -/
theorem runScanPipeline_invocation_split {α : Type} (invLimit : Nat) (ms : List α) :
    ∀ (c : Nat) (pf : CountingPostfilter),
      (runScanPipeline pf ms).1
        = (runInvocation true invLimit c pf ms).1
          ++ (runScanPipeline (runInvocation true invLimit c pf ms).2.1.1
                (runInvocation true invLimit c pf ms).2.1.2).1 := by
  induction ms with
  | nil => intro c pf; simp [runInvocation, runScanPipeline]
  | cons r rest ih =>
    intro c pf
    by_cases hlk : pf.limit ≤ pf.kept
    · simp [runInvocation, runScanPipeline, hlk]
    · by_cases hsp : invLimit ≤ c
      · simp [runInvocation, runScanPipeline, hlk, hsp]
      · by_cases hso : pf.skipped < pf.offset
        · simpa [runInvocation, runScanPipeline, hlk, hsp, hso] using
            ih (c + 1) ⟨pf.offset, pf.limit, pf.skipped + 1, pf.kept⟩
        · have h := ih (c + 1) ⟨pf.offset, pf.limit, pf.skipped, pf.kept + 1⟩
          simp [runInvocation, runScanPipeline, hlk, hsp, hso]
          exact h

/-- A suspended invocation has consumed exactly its remaining budget of
matches: the pending stream shrank by `invLimit - c`. -/
theorem runInvocation_suspended_length {α : Type} (invLimit : Nat) (ms : List α) :
    ∀ (c : Nat) (pf : CountingPostfilter),
      (runInvocation true invLimit c pf ms).2.2
          = ScanStatus.suspendedMoreAvailable →
      ms.length = (runInvocation true invLimit c pf ms).2.1.2.length
        + (invLimit - c) := by
  induction ms with
  | nil => intro c pf h; simp [runInvocation] at h
  | cons r rest ih =>
    intro c pf h
    by_cases hlk : pf.limit ≤ pf.kept
    · simp [runInvocation, hlk] at h
    · by_cases hsp : invLimit ≤ c
      · simp [runInvocation, hlk, hsp]
      · by_cases hso : pf.skipped < pf.offset
        · have hr := ih (c + 1) ⟨pf.offset, pf.limit, pf.skipped + 1, pf.kept⟩
            (by simpa [runInvocation, hlk, hsp, hso] using h)
          simp [runInvocation, hlk, hsp, hso]
          omega
        · have hr := ih (c + 1) ⟨pf.offset, pf.limit, pf.skipped, pf.kept + 1⟩
            (by simpa [runInvocation, hlk, hsp, hso] using h)
          simp [runInvocation, hlk, hsp, hso]
          omega

/-- After an invocation that did not suspend, the full pipeline run from
the returned state emits nothing: the scan was terminal. -/
theorem runInvocation_terminal_rest {α : Type} (invLimit : Nat) (ms : List α) :
    ∀ (c : Nat) (pf : CountingPostfilter),
      (runInvocation true invLimit c pf ms).2.2
          ≠ ScanStatus.suspendedMoreAvailable →
      (runScanPipeline (runInvocation true invLimit c pf ms).2.1.1
        (runInvocation true invLimit c pf ms).2.1.2).1 = [] := by
  induction ms with
  | nil => intro c pf _; simp [runInvocation, runScanPipeline]
  | cons r rest ih =>
    intro c pf h
    by_cases hlk : pf.limit ≤ pf.kept
    · simp [runInvocation, runScanPipeline, hlk]
    · by_cases hsp : invLimit ≤ c
      · exact absurd (by simp [runInvocation, hlk, hsp]) h
      · by_cases hso : pf.skipped < pf.offset
        · have hr := ih (c + 1) ⟨pf.offset, pf.limit, pf.skipped + 1, pf.kept⟩
            (by simpa [runInvocation, hlk, hsp, hso] using h)
          simpa [runInvocation, hlk, hsp, hso] using hr
        · have hr := ih (c + 1) ⟨pf.offset, pf.limit, pf.skipped, pf.kept + 1⟩
            (by simpa [runInvocation, hlk, hsp, hso] using h)
          simpa [runInvocation, hlk, hsp, hso] using hr

/-- Any sequence of suspend/resume invocations whose limits cover the
match stream emits the same row sequence as the full pipeline run. -/
theorem runInvocations_covers {α : Type} (limits : List Nat) :
    ∀ (pf : CountingPostfilter) (ms : List α),
      (∀ n ∈ limits, 0 < n) → ms.length ≤ limits.sum →
      runInvocations true limits pf ms = (runScanPipeline pf ms).1 := by
  induction limits with
  | nil =>
    intro pf ms _ hlen
    have hms : ms = [] := List.eq_nil_of_length_eq_zero (by simpa using hlen)
    subst hms
    simp [runInvocations, runScanPipeline]
  | cons n rest ih =>
    intro pf ms hpos hlen
    have hsplit := runScanPipeline_invocation_split n ms 0 pf
    by_cases hs : (runInvocation true n 0 pf ms).2.2
        = ScanStatus.suspendedMoreAvailable
    · have hcount := runInvocation_suspended_length n ms 0 pf hs
      have hsum : (n :: rest).sum = n + rest.sum := by simp
      have hrec := ih (runInvocation true n 0 pf ms).2.1.1
        (runInvocation true n 0 pf ms).2.1.2
        (fun m hm => hpos m (List.mem_cons_of_mem _ hm))
        (by omega)
      calc runInvocations true (n :: rest) pf ms
          = (runInvocation true n 0 pf ms).1
            ++ runInvocations true rest (runInvocation true n 0 pf ms).2.1.1
                (runInvocation true n 0 pf ms).2.1.2 := by
            simp only [runInvocations]
            rw [if_pos hs]
        _ = (runInvocation true n 0 pf ms).1
            ++ (runScanPipeline (runInvocation true n 0 pf ms).2.1.1
                  (runInvocation true n 0 pf ms).2.1.2).1 := by rw [hrec]
        _ = (runScanPipeline pf ms).1 := hsplit.symm
    · have hrest := runInvocation_terminal_rest n ms 0 pf hs
      have hlhs : runInvocations true (n :: rest) pf ms
          = (runInvocation true n 0 pf ms).1 := by
        simp only [runInvocations]
        rw [if_neg hs]
      rw [hlhs, hsplit, hrest, List.append_nil]

/-- On every path of `getNextTuple`, the boolean result is the negated
null test of the tuple left in the out-parameter slot. -/
theorem getNextTuple_result_spec {α κ : Type} (lookupType : IndexLookupType)
    (tuple : TableTuple α) (index : TableIndex α κ) (cursor : κ)
    (activeNumOfSearchKeys : Int) :
    (getNextTuple lookupType tuple index cursor activeNumOfSearchKeys).result
      = !(getNextTuple lookupType tuple index cursor
          activeNumOfSearchKeys).tuple.isNullTuple := by
  cases lookupType <;>
    cases hn : (index.nextValueAtKey cursor).1.isNullTuple <;>
      by_cases ha : activeNumOfSearchKeys = 0 <;>
        simp [getNextTuple, hn, ha]

/-- Claim C1: for every index, cursor state, and active-key count, if the
lookup type is equality or geo-contains, one step of `getNextTuple` first
requests `nextValueAtKey` from the cursor, and if that yields a non-null
tuple it returns `true` immediately with that tuple as the candidate row,
performing no `nextValue` call in the same step. -/
theorem eqLookup_requests_nextValueAtKey_first {α κ : Type}
    (lookupType : IndexLookupType) (tuple : TableTuple α)
    (index : TableIndex α κ) (cursor : κ) (activeNumOfSearchKeys : Int)
    (h : lookupType = IndexLookupType.INDEX_LOOKUP_TYPE_EQ
      ∨ lookupType = IndexLookupType.INDEX_LOOKUP_TYPE_GEO_CONTAINS) :
    (getNextTuple lookupType tuple index cursor
        activeNumOfSearchKeys).calls.head? = some CursorOp.nextValueAtKey
    ∧ ((index.nextValueAtKey cursor).1.isNullTuple = false →
        getNextTuple lookupType tuple index cursor activeNumOfSearchKeys =
          ⟨true, (index.nextValueAtKey cursor).1, (index.nextValueAtKey cursor).2,
            [CursorOp.nextValueAtKey]⟩) := by
  rcases h with h | h <;> subst h <;>
    cases hn : (index.nextValueAtKey cursor).1.isNullTuple <;>
      by_cases ha : activeNumOfSearchKeys = 0 <;>
        simp [getNextTuple, hn, ha]

/-- Witness for C1 on the model index `[1, 1, 2, 3]` with an equality
lookup on key `1` and one active search key. -/
theorem eqLookup_requests_nextValueAtKey_first_witness :
    (IndexLookupType.INDEX_LOOKUP_TYPE_EQ = IndexLookupType.INDEX_LOOKUP_TYPE_EQ
      ∨ IndexLookupType.INDEX_LOOKUP_TYPE_EQ
          = IndexLookupType.INDEX_LOOKUP_TYPE_GEO_CONTAINS)
    ∧ ((getNextTuple IndexLookupType.INDEX_LOOKUP_TYPE_EQ (none : TableTuple Int)
          (listIndex [1, 1, 2, 3]) (moveToKey [1, 1, 2, 3] 1) 1).calls.head?
            = some CursorOp.nextValueAtKey
        ∧ (((listIndex [1, 1, 2, 3]).nextValueAtKey
              (moveToKey [1, 1, 2, 3] 1)).1.isNullTuple = false →
            getNextTuple IndexLookupType.INDEX_LOOKUP_TYPE_EQ (none : TableTuple Int)
                (listIndex [1, 1, 2, 3]) (moveToKey [1, 1, 2, 3] 1) 1 =
              ⟨true,
                ((listIndex [1, 1, 2, 3]).nextValueAtKey
                  (moveToKey [1, 1, 2, 3] 1)).1,
                ((listIndex [1, 1, 2, 3]).nextValueAtKey
                  (moveToKey [1, 1, 2, 3] 1)).2,
                [CursorOp.nextValueAtKey]⟩)) :=
  ⟨Or.inl rfl,
    eqLookup_requests_nextValueAtKey_first IndexLookupType.INDEX_LOOKUP_TYPE_EQ
      (none : TableTuple Int) (listIndex [1, 1, 2, 3])
      (moveToKey [1, 1, 2, 3] 1) 1 (Or.inl rfl)⟩

/-- Claim C3: when the lookup type is equality or geo-contains and
`nextValueAtKey` returns a null tuple, `getNextTuple` calls `nextValue` if
and only if the active-key count is zero; with a nonzero active-key count
it never falls into the second branch and returns `false`, ending the scan
at that key value. -/
theorem eqLookup_exhausted_chain_falls_back_iff_zero_keys {α κ : Type}
    (lookupType : IndexLookupType) (tuple : TableTuple α)
    (index : TableIndex α κ) (cursor : κ) (activeNumOfSearchKeys : Int)
    (h : lookupType = IndexLookupType.INDEX_LOOKUP_TYPE_EQ
      ∨ lookupType = IndexLookupType.INDEX_LOOKUP_TYPE_GEO_CONTAINS)
    (hn : (index.nextValueAtKey cursor).1.isNullTuple = true) :
    (CursorOp.nextValue ∈ (getNextTuple lookupType tuple index cursor
        activeNumOfSearchKeys).calls ↔ activeNumOfSearchKeys = 0)
    ∧ (activeNumOfSearchKeys ≠ 0 →
        getNextTuple lookupType tuple index cursor activeNumOfSearchKeys =
          ⟨false, (index.nextValueAtKey cursor).1,
            (index.nextValueAtKey cursor).2, [CursorOp.nextValueAtKey]⟩) := by
  rcases h with h | h <;> subst h <;>
    by_cases ha : activeNumOfSearchKeys = 0 <;>
      simp [getNextTuple, hn, ha]

/-- Witness for C3 on the model index `[1, 1, 2, 3]`: equality lookup,
cursor past the duplicate chain for key `1`, one active search key. -/
theorem eqLookup_exhausted_chain_falls_back_iff_zero_keys_witness :
    (IndexLookupType.INDEX_LOOKUP_TYPE_EQ = IndexLookupType.INDEX_LOOKUP_TYPE_EQ
      ∨ IndexLookupType.INDEX_LOOKUP_TYPE_EQ
          = IndexLookupType.INDEX_LOOKUP_TYPE_GEO_CONTAINS)
    ∧ ((listIndex [1, 1, 2, 3]).nextValueAtKey
        (⟨2, some 1⟩ : ListIndexCursor)).1.isNullTuple = true
    ∧ ((CursorOp.nextValue ∈ (getNextTuple IndexLookupType.INDEX_LOOKUP_TYPE_EQ
          (none : TableTuple Int) (listIndex [1, 1, 2, 3])
          (⟨2, some 1⟩ : ListIndexCursor) 1).calls ↔ (1 : Int) = 0)
        ∧ ((1 : Int) ≠ 0 →
            getNextTuple IndexLookupType.INDEX_LOOKUP_TYPE_EQ (none : TableTuple Int)
                (listIndex [1, 1, 2, 3]) (⟨2, some 1⟩ : ListIndexCursor) 1 =
              ⟨false,
                ((listIndex [1, 1, 2, 3]).nextValueAtKey
                  (⟨2, some 1⟩ : ListIndexCursor)).1,
                ((listIndex [1, 1, 2, 3]).nextValueAtKey
                  (⟨2, some 1⟩ : ListIndexCursor)).2,
                [CursorOp.nextValueAtKey]⟩)) :=
  ⟨Or.inl rfl, by decide,
    eqLookup_exhausted_chain_falls_back_iff_zero_keys
      IndexLookupType.INDEX_LOOKUP_TYPE_EQ (none : TableTuple Int)
      (listIndex [1, 1, 2, 3]) (⟨2, some 1⟩ : ListIndexCursor) 1
      (Or.inl rfl) (by decide)⟩

/-- Claim C4: a null tuple from either cursor primitive is treated as scan
exhaustion, not as an error: whenever the out-slot holds a null tuple
after the call (neither branch yielded a non-null row), `getNextTuple`
returns `false` normally.  The embedding is a total function, so no path
raises, retries, or signals an error condition. -/
theorem null_tuple_is_scan_exhaustion {α κ : Type}
    (lookupType : IndexLookupType) (tuple : TableTuple α)
    (index : TableIndex α κ) (cursor : κ) (activeNumOfSearchKeys : Int)
    (h : (getNextTuple lookupType tuple index cursor
        activeNumOfSearchKeys).tuple.isNullTuple = true) :
    (getNextTuple lookupType tuple index cursor
        activeNumOfSearchKeys).result = false := by
  rw [getNextTuple_result_spec, h]
  rfl

/-- Witness for C4: a greater-than lookup at an exhausted cursor position
on the model index `[1, 1, 2, 3]`. -/
theorem null_tuple_is_scan_exhaustion_witness :
    (getNextTuple IndexLookupType.INDEX_LOOKUP_TYPE_GT (none : TableTuple Int)
        (listIndex [1, 1, 2, 3]) (⟨4, none⟩ : ListIndexCursor) 1).tuple.isNullTuple
          = true
    ∧ (getNextTuple IndexLookupType.INDEX_LOOKUP_TYPE_GT (none : TableTuple Int)
        (listIndex [1, 1, 2, 3]) (⟨4, none⟩ : ListIndexCursor) 1).result = false :=
  ⟨by decide,
    null_tuple_is_scan_exhaustion IndexLookupType.INDEX_LOOKUP_TYPE_GT
      (none : TableTuple Int) (listIndex [1, 1, 2, 3])
      (⟨4, none⟩ : ListIndexCursor) 1 (by decide)⟩

/-- Claim C5: on the model index over rows `A = [1, 1, 2, 3]`, an equality
lookup on `A = 1` with one active key yields exactly the two duplicate
rows and then returns `false` (never a row for `A = 2`); a greater-than
lookup bounded at `1` with one active key yields `A = 2` then `A = 3` in
ascending index order and then returns `false`. -/
theorem model_index_equality_and_gt_examples :
    scanTuples IndexLookupType.INDEX_LOOKUP_TYPE_EQ (listIndex [1, 1, 2, 3]) 1 10
        (moveToKey [1, 1, 2, 3] 1) = [1, 1]
    ∧ (getNextTuple IndexLookupType.INDEX_LOOKUP_TYPE_EQ (none : TableTuple Int)
        (listIndex [1, 1, 2, 3]) (⟨2, some 1⟩ : ListIndexCursor) 1).result = false
    ∧ scanTuples IndexLookupType.INDEX_LOOKUP_TYPE_GT (listIndex [1, 1, 2, 3]) 1 10
        (moveToGreaterThanKey [1, 1, 2, 3] 1) = [2, 3]
    ∧ (getNextTuple IndexLookupType.INDEX_LOOKUP_TYPE_GT (none : TableTuple Int)
        (listIndex [1, 1, 2, 3]) (⟨4, none⟩ : ListIndexCursor) 1).result = false := by
  decide

/-- For a non-equality, non-geo lookup, iterating `getNextTuple` over the
list-backed model index walks the rows from the cursor position onward, in
index order. -/
theorem scanTuples_listIndex_drop (lookupType : IndexLookupType)
    (h1 : lookupType ≠ IndexLookupType.INDEX_LOOKUP_TYPE_EQ)
    (h2 : lookupType ≠ IndexLookupType.INDEX_LOOKUP_TYPE_GEO_CONTAINS)
    (rows : List Int) (activeNumOfSearchKeys : Int) :
    ∀ (fuel p : Nat) (mk : Option Int),
      scanTuples lookupType (listIndex rows) activeNumOfSearchKeys fuel ⟨p, mk⟩
        = (rows.drop p).take fuel := by
  intro fuel
  induction fuel with
  | zero => intro p mk; simp [scanTuples]
  | succ n ih =>
    intro p mk
    cases hv : rows[p]? with
    | none =>
      have hdrop : rows.drop p = [] :=
        List.drop_eq_nil_of_le (List.getElem?_eq_none_iff.mp hv)
      simp [scanTuples, getNextTuple, h1, h2, listIndex, listNextValue, hv,
        TableTuple.isNullTuple, hdrop]
    | some v =>
      have hlt : p < rows.length := by
        by_contra hc
        simp [List.getElem?_eq_none_iff.mpr (Nat.le_of_not_lt hc)] at hv
      have hg : rows[p] = v := by
        have hge := List.getElem?_eq_getElem hlt
        rw [hge] at hv
        exact Option.some.inj hv
      have hdrop : rows.drop p = v :: rows.drop (p + 1) := by
        rw [List.drop_eq_getElem_cons hlt, hg]
      simp [scanTuples, getNextTuple, h1, h2, listIndex, listNextValue, hv,
        TableTuple.isNullTuple, hdrop]
      exact ih (p + 1) mk

/-- Claim C2: for every index, cursor state, and active-key count
(including zero), if the lookup type is neither equality nor geo-contains,
one step of `getNextTuple` requests `nextValue` from the cursor and
returns `true` exactly when the returned tuple is non-null; with zero
active search keys this degrades to a full scan of the model index in its
natural order. -/
theorem nonEqLookup_requests_nextValue {α κ : Type}
    (lookupType : IndexLookupType) (tuple : TableTuple α)
    (index : TableIndex α κ) (cursor : κ) (activeNumOfSearchKeys : Int)
    (rows : List Int)
    (h1 : lookupType ≠ IndexLookupType.INDEX_LOOKUP_TYPE_EQ)
    (h2 : lookupType ≠ IndexLookupType.INDEX_LOOKUP_TYPE_GEO_CONTAINS) :
    getNextTuple lookupType tuple index cursor activeNumOfSearchKeys
        = ⟨!(index.nextValue cursor).1.isNullTuple, (index.nextValue cursor).1,
            (index.nextValue cursor).2, [CursorOp.nextValue]⟩
    ∧ ((getNextTuple lookupType tuple index cursor
          activeNumOfSearchKeys).result = true
        ↔ (index.nextValue cursor).1.isNullTuple = false)
    ∧ scanTuples lookupType (listIndex rows) 0 rows.length ⟨0, none⟩ = rows := by
  have hmain : getNextTuple lookupType tuple index cursor activeNumOfSearchKeys
      = ⟨!(index.nextValue cursor).1.isNullTuple, (index.nextValue cursor).1,
          (index.nextValue cursor).2, [CursorOp.nextValue]⟩ := by
    simp [getNextTuple, h1, h2]
  refine ⟨hmain, ?_, ?_⟩
  · rw [hmain]
    cases (index.nextValue cursor).1.isNullTuple <;> simp
  · rw [scanTuples_listIndex_drop lookupType h1 h2 rows 0 rows.length 0 none]
    simp

/-- Witness for C2: a greater-than lookup over the model index
`[1, 1, 2, 3]`. -/
theorem nonEqLookup_requests_nextValue_witness :
    (IndexLookupType.INDEX_LOOKUP_TYPE_GT ≠ IndexLookupType.INDEX_LOOKUP_TYPE_EQ)
    ∧ (IndexLookupType.INDEX_LOOKUP_TYPE_GT
        ≠ IndexLookupType.INDEX_LOOKUP_TYPE_GEO_CONTAINS)
    ∧ (getNextTuple IndexLookupType.INDEX_LOOKUP_TYPE_GT (none : TableTuple Int)
          (listIndex [1, 1, 2, 3]) (⟨0, none⟩ : ListIndexCursor) 1
        = ⟨!((listIndex [1, 1, 2, 3]).nextValue
              (⟨0, none⟩ : ListIndexCursor)).1.isNullTuple,
            ((listIndex [1, 1, 2, 3]).nextValue (⟨0, none⟩ : ListIndexCursor)).1,
            ((listIndex [1, 1, 2, 3]).nextValue (⟨0, none⟩ : ListIndexCursor)).2,
            [CursorOp.nextValue]⟩
      ∧ ((getNextTuple IndexLookupType.INDEX_LOOKUP_TYPE_GT (none : TableTuple Int)
            (listIndex [1, 1, 2, 3]) (⟨0, none⟩ : ListIndexCursor) 1).result = true
          ↔ ((listIndex [1, 1, 2, 3]).nextValue
              (⟨0, none⟩ : ListIndexCursor)).1.isNullTuple = false)
      ∧ scanTuples IndexLookupType.INDEX_LOOKUP_TYPE_GT (listIndex [1, 1, 2, 3]) 0
          (List.length [1, 1, 2, 3]) ⟨0, none⟩ = [1, 1, 2, 3]) :=
  ⟨by decide, by decide,
    nonEqLookup_requests_nextValue IndexLookupType.INDEX_LOOKUP_TYPE_GT
      (none : TableTuple Int) (listIndex [1, 1, 2, 3])
      (⟨0, none⟩ : ListIndexCursor) 1 [1, 1, 2, 3] (by decide) (by decide)⟩

/-- Claim C9: `getNextTuple` treats the geo-contains lookup type
identically to the equality lookup type: for every index, cursor state,
out-slot content, and active-key count, it returns the same result,
writes the same tuple, leaves the same cursor, and performs the same
sequence of cursor operations. -/
theorem geo_contains_behaves_like_eq {α κ : Type} (tuple : TableTuple α)
    (index : TableIndex α κ) (cursor : κ) (activeNumOfSearchKeys : Int) :
    getNextTuple IndexLookupType.INDEX_LOOKUP_TYPE_GEO_CONTAINS tuple index cursor
        activeNumOfSearchKeys
      = getNextTuple IndexLookupType.INDEX_LOOKUP_TYPE_EQ tuple index cursor
          activeNumOfSearchKeys := by
  simp [getNextTuple]

/-- Claim C6: suspension is transparent: for every lookup type and fixed
index content, the row sequence produced by one full non-suspended scan
equals the concatenation of the row sequences produced by any sequence of
suspend/resume invocations with positive per-invocation row limits that
cover the scan; each resume continues from the exact pending-stream and
offset/limit postfilter state returned at suspension, and the search key
is never re-derived (the match stream is fixed once at the start of the
logical scan). -/
theorem suspension_is_transparent {α κ : Type} (lookupType : IndexLookupType)
    (index : TableIndex α κ) (activeNumOfSearchKeys : Int) (fuel : Nat)
    (cursor : κ) (pf : CountingPostfilter) (limits : List Nat)
    (hpos : ∀ n ∈ limits, 0 < n)
    (hcover : (scanTuples lookupType index activeNumOfSearchKeys fuel
        cursor).length ≤ limits.sum) :
    runInvocations true limits pf
        (scanTuples lookupType index activeNumOfSearchKeys fuel cursor)
      = (runScanPipeline pf
          (scanTuples lookupType index activeNumOfSearchKeys fuel cursor)).1 :=
  runInvocations_covers limits pf _ hpos hcover

/-- Witness for C6: a greater-than scan over the model index
`[1, 1, 2, 3]` split into two invocations of one row each. -/
theorem suspension_is_transparent_witness :
    (∀ n ∈ [1, 1], 0 < n)
    ∧ (scanTuples IndexLookupType.INDEX_LOOKUP_TYPE_GT (listIndex [1, 1, 2, 3]) 1
        10 (moveToGreaterThanKey [1, 1, 2, 3] 1)).length ≤ List.sum [1, 1]
    ∧ runInvocations true [1, 1] (⟨0, 5, 0, 0⟩ : CountingPostfilter)
        (scanTuples IndexLookupType.INDEX_LOOKUP_TYPE_GT (listIndex [1, 1, 2, 3]) 1
          10 (moveToGreaterThanKey [1, 1, 2, 3] 1))
      = (runScanPipeline (⟨0, 5, 0, 0⟩ : CountingPostfilter)
          (scanTuples IndexLookupType.INDEX_LOOKUP_TYPE_GT (listIndex [1, 1, 2, 3]) 1
            10 (moveToGreaterThanKey [1, 1, 2, 3] 1))).1 :=
  ⟨by decide, by decide,
    suspension_is_transparent IndexLookupType.INDEX_LOOKUP_TYPE_GT
      (listIndex [1, 1, 2, 3]) 1 10 (moveToGreaterThanKey [1, 1, 2, 3] 1)
      (⟨0, 5, 0, 0⟩ : CountingPostfilter) [1, 1] (by decide) (by decide)⟩

/-- Claim C7: for every scan with offset `o` and limit `l` over a match
sequence, the postfilter emits exactly `max 0 (min l (total - o))` rows,
deterministically skipping the first `o` matches (the emitted rows are
exactly `(ms.drop o).take l`), and the number of matches consumed before
the scan stops is a fixed function of the inputs, so a limit reached
mid-scan terminates at the same row position on every execution. -/
theorem countingPostfilter_emits_exactly {α : Type} (o l : Nat) (ms : List α) :
    (runScanPipeline ⟨o, l, 0, 0⟩ ms).1 = (ms.drop o).take l
    ∧ (((runScanPipeline ⟨o, l, 0, 0⟩ ms).1.length : Int)
        = max 0 (min (l : Int) ((ms.length : Int) - (o : Int))))
    ∧ (runScanPipeline ⟨o, l, 0, 0⟩ ms).2.2
        = if l = 0 then 0 else min (o + l) ms.length := by
  have hemit := runScanPipeline_emits ms o l 0 0
  refine ⟨by simpa using hemit, ?_, ?_⟩
  · have hlen : (runScanPipeline ⟨o, l, 0, 0⟩ ms).1.length
        = min (l - 0) (ms.length - (o - 0)) := by
      rw [hemit, List.length_take, List.length_drop]
    omega
  · have hcons := runScanPipeline_consumed ms o l 0 0
    rw [hcons]
    by_cases h0 : l = 0 <;> simp [h0]

/-- Claim C8: a freshly constructed `IndexScanExecutor` has the
suspendable flag `false` (with the suspension tuple limit defaulted to
`1`), and when the executor is not suspendable the suspension row-count
limit never triggers early termination: a non-suspendable invocation
never reports suspension and emits exactly what the full pipeline run
does, i.e. the scan runs to cursor exhaustion or postfilter limit. -/
theorem default_executor_not_suspendable :
    mkIndexScanExecutor.p_isSuspendable = false
    ∧ mkIndexScanExecutor.m_suspendable = false
    ∧ mkIndexScanExecutor.m_tupleLimitForSuspendableFragments = 1
    ∧ ∀ (α : Type) (invLimit c : Nat) (pf : CountingPostfilter) (ms : List α),
        (runInvocation false invLimit c pf ms).2.2
            ≠ ScanStatus.suspendedMoreAvailable
        ∧ (runInvocation false invLimit c pf ms).1 = (runScanPipeline pf ms).1 :=
  ⟨rfl, rfl, rfl, fun _ invLimit c pf ms =>
    ⟨(runInvocation_not_suspendable invLimit ms c pf).2,
      (runInvocation_not_suspendable invLimit ms c pf).1⟩⟩

/-- Claim C10: on every path — for every lookup type and active-key
count — `getNextTuple` returns `true` if and only if the tuple it leaves
in the output slot is non-null after the call. -/
theorem result_agrees_with_emitted_tuple {α κ : Type}
    (lookupType : IndexLookupType) (tuple : TableTuple α)
    (index : TableIndex α κ) (cursor : κ) (activeNumOfSearchKeys : Int) :
    (getNextTuple lookupType tuple index cursor activeNumOfSearchKeys).result = true
      ↔ (getNextTuple lookupType tuple index cursor
          activeNumOfSearchKeys).tuple.isNullTuple = false := by
  rw [getNextTuple_result_spec]
  cases (getNextTuple lookupType tuple index cursor
      activeNumOfSearchKeys).tuple.isNullTuple <;> simp

end VoltDB
